import Mathlib

/-!
# Verification of the ESP32 chunked audio upload server

Shallow embedding of `src/main.py` (the chunked-upload endpoint
`upload_audio_chunk`, its inline processing routine
`process_complete_audio`) and of the WAV container construction shared
with `src/server_fastapi.py` (`upload_audio`).

Modelling conventions:
- Bytes are `Nat` (values < 256 in real runs); chunk payloads are `List Nat`.
- Python dictionaries are association lists with Python `dict` update
  semantics: updating an existing key replaces its value in place, a new
  key is appended at the end (`dictInsert`); `del` removes the single
  entry (`dictRemove`).
- The external speech-recognition and translation collaborators are an
  oracle (`Pipeline`) passed to the handler; its possible behaviours
  mirror the exception structure of the source (`sr.UnknownValueError`,
  `sr.RequestError`, any other exception, or success).
- Wall-clock data (timestamp-derived filenames, `start_time`, the
  periodic 30-minute cleanup task) and the on-disk side effects carry no
  information used by the claims and are not modelled; the WAV container
  BYTES that `wave.open/writeframes` produces are modelled exactly
  (RIFF/WAVE header for PCM with the configured channels, sample width
  and rate, followed by the raw payload) and returned as an audit field.
-/

namespace MicPoints

/-- Lookup in a Python-style dict modelled as an association list. -/
def dictGet {α β : Type} [DecidableEq α] (k : α) : List (α × β) → Option β
  | [] => none
  | (k2, v) :: rest => if k = k2 then some v else dictGet k rest

/-- Python `d[k] = v`: replace in place if the key exists, else append. -/
def dictInsert {α β : Type} [DecidableEq α] (k : α) (v : β) :
    List (α × β) → List (α × β)
  | [] => [(k, v)]
  | (k2, v2) :: rest =>
      if k = k2 then (k, v) :: rest else (k2, v2) :: dictInsert k v rest

/-- Python `del d[k]`: remove the entry with key `k` (keys are unique). -/
def dictRemove {α β : Type} [DecidableEq α] (k : α) :
    List (α × β) → List (α × β)
  | [] => []
  | (k2, v2) :: rest =>
      if k = k2 then rest else (k2, v2) :: dictRemove k rest

/-- Audio configuration constants of `src/main.py` (lines 13-15). -/
def CHANNELS : Nat := 1

/-- `SAMPLE_WIDTH = 2` in `src/main.py`. -/
def SAMPLE_WIDTH : Nat := 2

/-- `SAMPLE_RATE = 16000` in `src/main.py`. -/
def SAMPLE_RATE : Nat := 16000

/-- One entry of the module-level `sessions` dictionary: the per-session
mapping from chunk number to chunk bytes, and the running
`total_chunks` maximum.  (`start_time` is wall-clock data used only by
the periodic cleanup task and is not modelled.) -/
structure Session where
  chunks : List (Int × List Nat)
  totalChunks : Int
deriving Repr, DecidableEq

/-- The module-level `sessions` dictionary, keyed by session id. -/
def ServerState : Type := List (String × Session)

/-- A fresh session as created on first sight of a session id
(`src/main.py` lines 65-71). -/
def newSession : Session := ⟨[], 0⟩

/-- Little-endian 16-bit field of the WAV header. -/
def u16le (n : Nat) : List Nat := [n % 256, n / 256 % 256]

/-- Little-endian 32-bit field of the WAV header. -/
def u32le (n : Nat) : List Nat :=
  [n % 256, n / 256 % 256, n / 65536 % 256, n / 16777216 % 256]

/-- The bytes that Python's `wave` module writes for PCM data with the
given configuration: RIFF/WAVE header embedding channel count, sample
width and sample rate, then the raw payload
(`src/main.py` lines 135-139, `src/server_fastapi.py` lines 51-55). -/
def assembleWav (channels sampleWidth sampleRate : Nat)
    (data : List Nat) : List Nat :=
  [82, 73, 70, 70] ++ u32le (36 + data.length) ++ [87, 65, 86, 69] ++
  [102, 109, 116, 32] ++ u32le 16 ++ u16le 1 ++ u16le channels ++
  u32le sampleRate ++ u32le (sampleRate * channels * sampleWidth) ++
  u16le (channels * sampleWidth) ++ u16le (sampleWidth * 8) ++
  [100, 97, 116, 97] ++ u32le data.length ++ data

/-- `sorted(chunks.keys())` (`src/main.py` line 118). -/
def sortedChunkKeys (s : Session) : List Int :=
  (s.chunks.map Prod.fst).insertionSort (fun a b => a ≤ b)

/-- The accumulated payload assembled at processing time: chunks
concatenated in ascending chunk-number order
(`src/main.py` lines 117-120). -/
def assemblePayload (s : Session) : List Nat :=
  ((sortedChunkKeys s).map (fun k => (dictGet k s.chunks).getD [])).flatten

/-- Outcome of `recognizer.recognize_google` as seen by the caller:
success with the transcript, `sr.UnknownValueError`, `sr.RequestError`
with its message, or some other exception with its message. -/
inductive TranscribeResult where
  | ok (text : String)
  | unknownValue
  | requestError (msg : String)
  | exn (msg : String)
deriving Repr, DecidableEq

/-- Outcome of `Translator().translate(...)`: success or an exception. -/
inductive TranslateResult where
  | ok (text : String)
  | exn (msg : String)
deriving Repr, DecidableEq

/-- The external transcription and translation collaborators, passed to
the handler as an oracle on the container bytes and on the transcript. -/
structure Pipeline where
  transcribe : List Nat → TranscribeResult
  translate : String → TranslateResult

/-- The handler's HTTP-visible result, one constructor per `return` or
`raise` shape of `src/main.py`. -/
inductive Response where
  | chunkReceived (sessionId : String) (chunksReceived : Nat)
  | processed (sessionId english indonesian : String) (chunksProcessed : Nat)
  | speechNotRecognized
  | apiError (msg : String)
  | processingError (msg : String)
  | httpError (detail : String)
deriving Repr, DecidableEq

/-- Result of one handler invocation: the new `sessions` state, the HTTP
response, how many times `recognize_google` was invoked during the call,
and (audit field) the WAV container bytes written during the call. -/
structure StepResult where
  state : ServerState
  response : Response
  transcribeCalls : Nat
  wavWritten : Option (List Nat)

/-- `process_complete_audio` of `src/main.py` (lines 101-234): assemble
the session's chunks in sorted chunk-number order, write the WAV
container, invoke speech recognition then translation, delete the
session entry only on full success; recognition or translation failures
return JSON error responses and leave the session in place.  The
session-not-found guard raises an `HTTPException` (modelled as
`Response.httpError`). -/
def process_complete_audio (st : ServerState) (sid : String)
    (p : Pipeline) : StepResult :=
  match dictGet sid st with
  | none => ⟨st, .httpError "Session not found", 0, none⟩
  | some s =>
    let wav := assembleWav CHANNELS SAMPLE_WIDTH SAMPLE_RATE (assemblePayload s)
    match p.transcribe wav with
    | .ok textEn =>
      match p.translate textEn with
      | .ok translated =>
          ⟨dictRemove sid st, .processed sid textEn translated s.chunks.length,
            1, some wav⟩
      | .exn m => ⟨st, .processingError m, 1, some wav⟩
    | .unknownValue => ⟨st, .speechNotRecognized, 1, some wav⟩
    | .requestError m => ⟨st, .apiError m, 1, some wav⟩
    | .exn m => ⟨st, .processingError m, 1, some wav⟩

/-- The state mutation performed by every chunk upload before any
finality check (`src/main.py` lines 64-78): create the session if the id
is unseen, store the chunk under its chunk number (overwriting any
earlier chunk with that number), and update `total_chunks`. -/
def append_phase (st : ServerState) (sid : String) (chunkNumber : Int)
    (chunkData : List Nat) : ServerState :=
  let st1 := if (dictGet sid st).isSome then st else dictInsert sid newSession st
  let s := (dictGet sid st1).getD newSession
  dictInsert sid
    ⟨dictInsert chunkNumber chunkData s.chunks, max s.totalChunks chunkNumber⟩
    st1

/-- The chunks currently stored for `sid` (empty if the id is unknown). -/
def chunksOf (st : ServerState) (sid : String) : List (Int × List Nat) :=
  ((dictGet sid st).getD newSession).chunks

/-- The payload that processing would assemble for `sid` right now. -/
def payloadOf (st : ServerState) (sid : String) : List Nat :=
  assemblePayload ((dictGet sid st).getD newSession)

/-- Python `str.lower()` as used by `is_final.lower()` on line 54 of
`src/main.py`: lower-case each character (same per-character mapping as
`String.toLower`, written as a structural map over the characters). -/
def pyLower (s : String) : String := ⟨s.data.map Char.toLower⟩

/-- `upload_audio_chunk` of `src/main.py` (lines 42-99): store the
chunk, then — when `is_final.lower() == "true"` — run
`process_complete_audio` inline (awaited) and return its result as the
HTTP response; otherwise acknowledge the chunk with the current chunk
count. -/
def upload_audio_chunk (st : ServerState) (sid : String) (chunkNumber : Int)
    (isFinal : String) (chunkData : List Nat) (p : Pipeline) : StepResult :=
  let st2 := append_phase st sid chunkNumber chunkData
  if pyLower isFinal = "true" then process_complete_audio st2 sid p
  else ⟨st2, .chunkReceived sid (chunksOf st2 sid).length, 0, none⟩

/-- The WAV container bytes produced by the legacy single-shot endpoint
`upload_audio` of `src/server_fastapi.py` (lines 44-55) for a given
uploaded byte sequence. -/
def upload_audio_wav_bytes (audioData : List Nat) : List Nat :=
  assembleWav CHANNELS SAMPLE_WIDTH SAMPLE_RATE audioData

/-- Does the response report full processing success (the JSON of
`src/main.py` lines 182-194)? -/
def isSuccessOutcome : Response → Bool
  | .processed _ _ _ _ => true
  | _ => false

/-- Does the response report a failed processing attempt (one of the
JSON error bodies of `src/main.py` lines 196-228)? -/
def isFailureOutcome : Response → Bool
  | .speechNotRecognized => true
  | .apiError _ => true
  | .processingError _ => true
  | _ => false

/-- Oracle whose recognition step always raises `sr.UnknownValueError`. -/
def pUnknown : Pipeline := ⟨fun _ => .unknownValue, fun t => .ok t⟩

/-- Oracle that transcribes to "hello world" and translates to
"halo dunia". -/
def pOk : Pipeline :=
  ⟨fun _ => .ok "hello world", fun _ => .ok "halo dunia"⟩

/-- The session stored under `sid` immediately after the append phase of
a chunk upload. -/
def sessionAfterAppend (st : ServerState) (sid : String) (n : Int)
    (d : List Nat) : Session :=
  let s0 := (dictGet sid st).getD newSession
  ⟨dictInsert n d s0.chunks, max s0.totalChunks n⟩

/-! ### Dictionary lemmas -/

theorem dictGet_insert_self {α β : Type} [DecidableEq α] (k : α) (v : β)
    (l : List (α × β)) : dictGet k (dictInsert k v l) = some v := by
  induction l with
  | nil => simp [dictInsert, dictGet]
  | cons hd tl ih =>
      by_cases h : k = hd.1
      · simp [dictInsert, dictGet, h]
      · simpa [dictInsert, dictGet, h] using ih

theorem dictGet_eq_none_of_not_mem {α β : Type} [DecidableEq α] (k : α)
    (l : List (α × β)) (h : k ∉ l.map Prod.fst) : dictGet k l = none := by
  induction l with
  | nil => rfl
  | cons hd tl ih =>
      simp only [List.map_cons, List.mem_cons] at h
      push_neg at h
      simp [dictGet, h.1, ih h.2]

theorem mem_keys_dictInsert {α β : Type} [DecidableEq α] (a k : α) (v : β)
    (l : List (α × β)) :
    a ∈ (dictInsert k v l).map Prod.fst ↔ a = k ∨ a ∈ l.map Prod.fst := by
  induction l with
  | nil => simp [dictInsert]
  | cons hd tl ih =>
      obtain ⟨k2, v2⟩ := hd
      by_cases h : k = k2
      · subst h
        have hins : dictInsert k v ((k, v2) :: tl) = (k, v) :: tl := by
          simp [dictInsert]
        rw [hins]
        simp only [List.map_cons, List.mem_cons]
        tauto
      · have hins : dictInsert k v ((k2, v2) :: tl) =
            (k2, v2) :: dictInsert k v tl := by
          simp [dictInsert, h]
        rw [hins]
        simp only [List.map_cons, List.mem_cons, ih]
        tauto

theorem nodup_keys_dictInsert {α β : Type} [DecidableEq α] (k : α) (v : β)
    (l : List (α × β)) (h : (l.map Prod.fst).Nodup) :
    ((dictInsert k v l).map Prod.fst).Nodup := by
  induction l with
  | nil => simp [dictInsert]
  | cons hd tl ih =>
      simp only [List.map_cons, List.nodup_cons] at h
      by_cases hk : k = hd.1
      · subst hk
        simpa [dictInsert, List.nodup_cons] using h
      · simp only [dictInsert, if_neg hk, List.map_cons, List.nodup_cons,
          mem_keys_dictInsert]
        refine ⟨?_, ih h.2⟩
        rintro (rfl | hmem)
        · exact hk rfl
        · exact h.1 hmem

theorem dictGet_remove_self {α β : Type} [DecidableEq α] (k : α)
    (l : List (α × β)) (h : (l.map Prod.fst).Nodup) :
    dictGet k (dictRemove k l) = none := by
  induction l with
  | nil => rfl
  | cons hd tl ih =>
      simp only [List.map_cons, List.nodup_cons] at h
      by_cases hk : k = hd.1
      · subst hk
        simp only [dictRemove, if_pos rfl]
        exact dictGet_eq_none_of_not_mem _ _ h.1
      · simp [dictRemove, dictGet, hk, ih h.2]

/-! ### Lemmas about the append phase and the processing routine -/

theorem append_phase_get (st : ServerState) (sid : String) (n : Int)
    (d : List Nat) :
    dictGet sid (append_phase st sid n d) = some (sessionAfterAppend st sid n d) := by
  cases h : dictGet sid st <;>
    simp [append_phase, sessionAfterAppend, h, dictGet_insert_self]

theorem nodup_keys_append_phase (st : ServerState) (sid : String) (n : Int)
    (d : List Nat) (h : (st.map Prod.fst).Nodup) :
    ((append_phase st sid n d).map Prod.fst).Nodup := by
  cases hg : dictGet sid st <;>
    simp [append_phase, hg, nodup_keys_dictInsert, h,
      nodup_keys_dictInsert _ _ _ (nodup_keys_dictInsert sid newSession st h)]

theorem transcribeCalls_process_append (st : ServerState) (sid : String)
    (n : Int) (d : List Nat) (p : Pipeline) :
    (process_complete_audio (append_phase st sid n d) sid p).transcribeCalls = 1 := by
  simp only [process_complete_audio, append_phase_get]
  cases h1 : p.transcribe (assembleWav CHANNELS SAMPLE_WIDTH SAMPLE_RATE
      (assemblePayload (sessionAfterAppend st sid n d))) with
  | ok e =>
      cases h2 : p.translate e <;> simp [h2]
  | unknownValue => simp
  | requestError m => simp
  | exn m => simp

theorem wavWritten_process_append (st : ServerState) (sid : String)
    (n : Int) (d : List Nat) (p : Pipeline) :
    (process_complete_audio (append_phase st sid n d) sid p).wavWritten =
      some (upload_audio_wav_bytes (assemblePayload (sessionAfterAppend st sid n d))) := by
  simp only [process_complete_audio, append_phase_get, upload_audio_wav_bytes]
  cases h1 : p.transcribe (assembleWav CHANNELS SAMPLE_WIDTH SAMPLE_RATE
      (assemblePayload (sessionAfterAppend st sid n d))) with
  | ok e =>
      cases h2 : p.translate e <;> simp [h2]
  | unknownValue => simp
  | requestError m => simp
  | exn m => simp

theorem upload_final_eq (st : ServerState) (sid : String) (n : Int)
    (isFinal : String) (d : List Nat) (p : Pipeline)
    (h : pyLower isFinal = "true") :
    upload_audio_chunk st sid n isFinal d p =
      process_complete_audio (append_phase st sid n d) sid p := by
  simp [upload_audio_chunk, h]

theorem upload_nonfinal_eq (st : ServerState) (sid : String) (n : Int)
    (isFinal : String) (d : List Nat) (p : Pipeline)
    (h : ¬ pyLower isFinal = "true") :
    upload_audio_chunk st sid n isFinal d p =
      ⟨append_phase st sid n d,
        .chunkReceived sid (chunksOf (append_phase st sid n d) sid).length,
        0, none⟩ := by
  simp [upload_audio_chunk, h]

/-! ### Claim C1 -/

/-- C1 counterexample: starting from an empty registry, signalling
finish twice for session id "esp32" (two uploads with `is_final` set,
here with a pipeline whose recognition step fails so the session entry
survives the first run) invokes the transcription pipeline twice — not
exactly once, ever, as the claim states.  There is no idempotency
guard: each finish signal re-runs the whole processing routine. -/
theorem C1_counterexample :
    (upload_audio_chunk [] "esp32" 1 "true" [0, 1] pUnknown).transcribeCalls +
      (upload_audio_chunk
        (upload_audio_chunk [] "esp32" 1 "true" [0, 1] pUnknown).state
        "esp32" 2 "true" [2, 3] pUnknown).transcribeCalls = 2 := by
  decide

/-- C1 (amended): every chunk upload whose `is_final` field parses to
true triggers exactly one transcription-pipeline invocation during that
request; a second finish for the same session therefore triggers a
second invocation rather than being an idempotent no-op. -/
theorem C1_each_finish_invokes_pipeline_once (st : ServerState) (sid : String)
    (n : Int) (isFinal : String) (d : List Nat) (p : Pipeline)
    (h : pyLower isFinal = "true") :
    (upload_audio_chunk st sid n isFinal d p).transcribeCalls = 1 := by
  rw [upload_final_eq st sid n isFinal d p h]
  exact transcribeCalls_process_append st sid n d p

/-- C1 witness: the amended theorem applied at a concrete finish
upload. -/
theorem C1_each_finish_invokes_pipeline_once_witness :
    pyLower "true" = "true" ∧
      (upload_audio_chunk [] "esp32" 1 "true" [0, 1] pUnknown).transcribeCalls = 1 :=
  ⟨rfl, C1_each_finish_invokes_pipeline_once [] "esp32" 1 "true" [0, 1] pUnknown rfl⟩

/-! ### Claim C2 -/

/-- C2 counterexample: the HTTP response of a finish upload is the
processing result itself — with a succeeding pipeline it is the
transcript/translation payload, with a failing one it is the failure
body — so the response differs with the pipeline outcome.  The request
therefore waits for the assembly/transcription/translation work; no
background unit of work decoupled from the request/response cycle is
scheduled. -/
theorem C2_counterexample :
    (upload_audio_chunk [] "esp32" 1 "true" [0, 1] pOk).response =
        .processed "esp32" "hello world" "halo dunia" 1 ∧
      (upload_audio_chunk [] "esp32" 1 "true" [0, 1] pUnknown).response =
        .speechNotRecognized ∧
      (upload_audio_chunk [] "esp32" 1 "true" [0, 1] pOk).response ≠
        (upload_audio_chunk [] "esp32" 1 "true" [0, 1] pUnknown).response := by
  refine ⟨by decide, by decide, by decide⟩

/-- C2 (amended): the finish upload runs the pipeline synchronously
inside the request handler: whenever transcription of the assembled
container succeeds with transcript `e` and its translation succeeds
with `t`, the finish HTTP response itself carries `e` and `t`. -/
theorem C2_finish_response_carries_pipeline_result (st : ServerState)
    (sid : String) (n : Int) (isFinal : String) (d : List Nat) (p : Pipeline)
    (e t : String) (h : pyLower isFinal = "true")
    (htr : p.transcribe (upload_audio_wav_bytes
        (assemblePayload (sessionAfterAppend st sid n d))) = .ok e)
    (htl : p.translate e = .ok t) :
    (upload_audio_chunk st sid n isFinal d p).response =
      .processed sid e t (sessionAfterAppend st sid n d).chunks.length := by
  rw [upload_final_eq st sid n isFinal d p h]
  simp only [upload_audio_wav_bytes] at htr
  simp only [process_complete_audio, append_phase_get]
  simp [htr, htl]

/-- C2 witness: the amended theorem applied at a concrete finish
upload with the succeeding oracle `pOk`. -/
theorem C2_finish_response_carries_pipeline_result_witness :
    (upload_audio_chunk [] "esp32" 1 "true" [9] pOk).response =
      .processed "esp32" "hello world" "halo dunia" 1 :=
  (C2_finish_response_carries_pipeline_result [] "esp32" 1 "true" [9] pOk
    "hello world" "halo dunia" rfl rfl rfl).trans (by decide)

/-! ### Claim C3 -/

/-- C3 counterexample: a session whose accumulated payload is 2 bytes —
below the threshold `sample_rate * sample_width * channels * d` for
every positive minimum duration `d`, including one second — is still
processed at finish: the pipeline is invoked (one transcription call)
instead of failing with an `AudioTooShort` error, which does not exist
anywhere in the code. -/
theorem C3_counterexample :
    (assemblePayload (sessionAfterAppend [] "esp32" 1 [0, 1])).length = 2 ∧
      2 < SAMPLE_RATE * SAMPLE_WIDTH * CHANNELS * 1 ∧
      (upload_audio_chunk [] "esp32" 1 "true" [0, 1] pUnknown).transcribeCalls = 1 := by
  refine ⟨by decide, by decide, by decide⟩

/-- C3 (amended): processing at finish performs no minimum-duration
validation: even when the accumulated byte total is below
`SAMPLE_RATE * SAMPLE_WIDTH * CHANNELS * minDur`, the WAV container is
assembled from those bytes and the transcription pipeline is invoked
exactly once. -/
theorem C3_below_threshold_still_processed (st : ServerState) (sid : String)
    (n : Int) (isFinal : String) (d : List Nat) (p : Pipeline) (minDur : Nat)
    (h : pyLower isFinal = "true")
    (_hshort : (assemblePayload (sessionAfterAppend st sid n d)).length <
      SAMPLE_RATE * SAMPLE_WIDTH * CHANNELS * minDur) :
    (upload_audio_chunk st sid n isFinal d p).transcribeCalls = 1 ∧
      (upload_audio_chunk st sid n isFinal d p).wavWritten =
        some (upload_audio_wav_bytes
          (assemblePayload (sessionAfterAppend st sid n d))) := by
  rw [upload_final_eq st sid n isFinal d p h]
  exact ⟨transcribeCalls_process_append st sid n d p,
    wavWritten_process_append st sid n d p⟩

/-- C3 witness: the amended theorem applied at a concrete 2-byte
session with a one-second minimum duration. -/
theorem C3_below_threshold_still_processed_witness :
    (upload_audio_chunk [] "esp32" 1 "true" [0, 1] pUnknown).transcribeCalls = 1 ∧
      (upload_audio_chunk [] "esp32" 1 "true" [0, 1] pUnknown).wavWritten =
        some (upload_audio_wav_bytes
          (assemblePayload (sessionAfterAppend [] "esp32" 1 [0, 1]))) :=
  C3_below_threshold_still_processed [] "esp32" 1 "true" [0, 1] pUnknown 1
    rfl (by decide)

/-! ### Claim C4 -/

/-- C4 counterexample: uploading a chunk for the session id "ghost",
which no operation ever created, does not fail with `NotFound`: the
handler silently creates the session, stores the chunk and answers
success — new session state is created, contradicting the claim. -/
theorem C4_counterexample :
    dictGet "ghost" ([] : ServerState) = none ∧
      (upload_audio_chunk [] "ghost" 1 "false" [7] pUnknown).response =
        .chunkReceived "ghost" 1 ∧
      dictGet "ghost"
          (upload_audio_chunk [] "ghost" 1 "false" [7] pUnknown).state =
        some ⟨[(1, [7])], 1⟩ := by
  refine ⟨rfl, by decide, by decide⟩

/-- C4 (amended): a chunk upload naming a session id absent from the
registry implicitly creates that session: the request succeeds with a
chunk count of 1 and the new session holds exactly the uploaded chunk;
there is no `NotFound` failure and no separate start operation. -/
theorem C4_append_to_unknown_id_creates_session (st : ServerState)
    (sid : String) (n : Int) (isFinal : String) (d : List Nat) (p : Pipeline)
    (hunknown : dictGet sid st = none) (hnf : ¬ pyLower isFinal = "true") :
    (upload_audio_chunk st sid n isFinal d p).response = .chunkReceived sid 1 ∧
      dictGet sid (upload_audio_chunk st sid n isFinal d p).state =
        some ⟨[(n, d)], max 0 n⟩ := by
  rw [upload_nonfinal_eq st sid n isFinal d p hnf]
  refine ⟨?_, ?_⟩
  · simp [chunksOf, append_phase_get, sessionAfterAppend, hunknown,
      newSession, dictInsert]
  · simp [append_phase_get, sessionAfterAppend, hunknown, newSession,
      dictInsert]

/-- C4 witness: the amended theorem applied at the empty registry and
the never-created id "ghost". -/
theorem C4_append_to_unknown_id_creates_session_witness :
    (upload_audio_chunk [] "ghost" 1 "false" [7] pUnknown).response =
        .chunkReceived "ghost" 1 ∧
      dictGet "ghost"
          (upload_audio_chunk [] "ghost" 1 "false" [7] pUnknown).state =
        some ⟨[(1, [7])], 1⟩ :=
  C4_append_to_unknown_id_creates_session [] "ghost" 1 "false" [7] pUnknown
    rfl (by decide)

/-! ### Claim C5 -/

/-- C5 counterexample: after a successful finish on session "esp32" the
entry has been deleted, and a subsequent append is NOT rejected with
`InvalidState`: it is accepted as chunk 1 of a silently re-created
session, and the session's stored bytes change (the new chunk is
stored) rather than staying unchanged. -/
theorem C5_counterexample :
    dictGet "esp32" (upload_audio_chunk [] "esp32" 1 "true" [9] pOk).state = none ∧
      (upload_audio_chunk (upload_audio_chunk [] "esp32" 1 "true" [9] pOk).state
          "esp32" 2 "false" [8] pUnknown).response = .chunkReceived "esp32" 1 ∧
      chunksOf (upload_audio_chunk
          (upload_audio_chunk [] "esp32" 1 "true" [9] pOk).state
          "esp32" 2 "false" [8] pUnknown).state "esp32" = [(2, [8])] := by
  refine ⟨by decide, by decide, by decide⟩

/-- C5 (amended): an append after a finish signal is always accepted,
never `InvalidState`: the chunk is stored under its chunk number (in a
freshly re-created session when the finish succeeded and deleted the
entry, or into the retained session when the finish failed) and the
request answers with the current chunk count. -/
theorem C5_append_after_finish_accepted (st : ServerState) (sid : String)
    (n1 : Int) (f1 : String) (d1 : List Nat) (p1 : Pipeline)
    (n2 : Int) (f2 : String) (d2 : List Nat) (p2 : Pipeline)
    (_h1 : pyLower f1 = "true") (h2 : ¬ pyLower f2 = "true") :
    ∃ k, (upload_audio_chunk (upload_audio_chunk st sid n1 f1 d1 p1).state
        sid n2 f2 d2 p2).response = .chunkReceived sid k ∧
      dictGet n2 (chunksOf (upload_audio_chunk
        (upload_audio_chunk st sid n1 f1 d1 p1).state
        sid n2 f2 d2 p2).state sid) = some d2 := by
  rw [upload_nonfinal_eq _ sid n2 f2 d2 p2 h2]
  refine ⟨_, rfl, ?_⟩
  simp [chunksOf, append_phase_get, sessionAfterAppend, dictGet_insert_self]

/-- C5 witness: the amended theorem applied to a successful finish
followed by a concrete append. -/
theorem C5_append_after_finish_accepted_witness :
    ∃ k, (upload_audio_chunk (upload_audio_chunk [] "esp32" 1 "true" [9] pOk).state
        "esp32" 2 "false" [8] pUnknown).response = .chunkReceived "esp32" k ∧
      dictGet 2 (chunksOf (upload_audio_chunk
        (upload_audio_chunk [] "esp32" 1 "true" [9] pOk).state
        "esp32" 2 "false" [8] pUnknown).state "esp32") = some [8] :=
  C5_append_after_finish_accepted [] "esp32" 1 "true" [9] pOk 2 "false" [8]
    pUnknown rfl (by decide)

/-! ### Claim C6 -/

theorem map_dictGet_keys (l : List (Int × List Nat))
    (h : (l.map Prod.fst).Nodup) :
    (l.map Prod.fst).map (fun k => (dictGet k l).getD []) = l.map Prod.snd := by
  induction l with
  | nil => rfl
  | cons hd tl ih =>
      obtain ⟨k, v⟩ := hd
      simp only [List.map_cons, List.nodup_cons] at h
      simp only [List.map_cons]
      congr 1
      · simp [dictGet]
      · have hstep : ∀ a ∈ tl.map Prod.fst,
            (dictGet a ((k, v) :: tl)).getD [] = (dictGet a tl).getD [] := by
          intro a ha
          have hne : a ≠ k := fun e => h.1 (e ▸ ha)
          simp [dictGet, hne]
        rw [List.map_congr_left hstep, ih h.2]

/-- C6 counterexample: the assembled payload is neither in delivery
order nor free of deduplication.  Re-sending chunk number 1 (first 2
bytes, then 1 byte, the second upload final) overwrites: the container
payload is the 1-byte second upload, so its length 1 differs from the
3-byte sum of the appended chunk lengths.  And delivering chunk 2
before chunk 1 yields the sorted payload `[187, 170]`, not the
delivery-order concatenation `[170, 187]`. -/
theorem C6_counterexample :
    (upload_audio_chunk (upload_audio_chunk [] "esp32" 1 "false" [1, 2]
        pUnknown).state "esp32" 1 "true" [3] pUnknown).wavWritten =
        some (upload_audio_wav_bytes [3]) ∧
      (List.length [1, 2] + List.length [3] = 3 ∧ List.length [(3 : Nat)] = 1) ∧
      (upload_audio_chunk (upload_audio_chunk [] "reorder" 2 "false" [170]
        pUnknown).state "reorder" 1 "true" [187] pUnknown).wavWritten =
        some (upload_audio_wav_bytes [187, 170]) := by
  refine ⟨by decide, ⟨by decide, by decide⟩, by decide⟩

/-- C6 (amended): the assembled payload is the concatenation, in
ascending chunk-number order, of the most recently stored chunk for
each chunk number: the key sequence used by assembly is sorted, and the
payload length equals the sum of the stored (per-number deduplicated)
chunk lengths. -/
theorem C6_payload_is_sorted_concatenation (s : Session)
    (h : (s.chunks.map Prod.fst).Nodup) :
    (assemblePayload s).length = (s.chunks.map (fun q => q.2.length)).sum ∧
      List.Sorted (fun a b => a ≤ b) (sortedChunkKeys s) := by
  constructor
  · unfold assemblePayload sortedChunkKeys
    rw [List.length_flatten, List.map_map]
    have hperm : List.Perm
        ((s.chunks.map Prod.fst).insertionSort (fun a b => a ≤ b))
        (s.chunks.map Prod.fst) :=
      List.perm_insertionSort _ _
    have hsum := (hperm.map
      (fun k => ((dictGet k s.chunks).getD []).length)).sum_eq
    have hkeys : (s.chunks.map Prod.fst).map
        (fun k => ((dictGet k s.chunks).getD []).length) =
        s.chunks.map (fun q => q.2.length) := by
      have h2 := congrArg (List.map List.length) (map_dictGet_keys s.chunks h)
      simpa [List.map_map, Function.comp] using h2
    calc (((s.chunks.map Prod.fst).insertionSort (fun a b => a ≤ b)).map
            (List.length ∘ fun k => (dictGet k s.chunks).getD [])).sum
        = (((s.chunks.map Prod.fst).insertionSort (fun a b => a ≤ b)).map
            (fun k => ((dictGet k s.chunks).getD []).length)).sum := rfl
      _ = ((s.chunks.map Prod.fst).map
            (fun k => ((dictGet k s.chunks).getD []).length)).sum := hsum
      _ = (s.chunks.map (fun q => q.2.length)).sum := by rw [hkeys]
  · exact List.sorted_insertionSort _ _

/-- C6 witness: the amended theorem applied to a concrete session whose
chunks arrived out of order. -/
theorem C6_payload_is_sorted_concatenation_witness :
    (assemblePayload ⟨[(2, [7]), (1, [5, 6])], 2⟩).length =
        (([(2, [7]), (1, [5, 6])] : List (Int × List Nat)).map
          (fun q => q.2.length)).sum ∧
      List.Sorted (fun a b => a ≤ b)
        (sortedChunkKeys ⟨[(2, [7]), (1, [5, 6])], 2⟩) :=
  C6_payload_is_sorted_concatenation ⟨[(2, [7]), (1, [5, 6])], 2⟩ (by decide)

/-! ### Claim C7 -/

/-- C7 counterexample: a zero-length append is not rejected: it is
acknowledged as a successful chunk upload and the empty chunk is stored
in the session (the stored chunk map changes), so no `EmptyChunk`
failure exists and the session's stored bytes are not left unchanged. -/
theorem C7_counterexample :
    (upload_audio_chunk [] "esp32" 1 "false" [] pUnknown).response =
        .chunkReceived "esp32" 1 ∧
      chunksOf (upload_audio_chunk [] "esp32" 1 "false" [] pUnknown).state
        "esp32" = [(1, [])] := by
  refine ⟨by decide, by decide⟩

/-- C7 (amended): a zero-length append is accepted exactly like any
other chunk: the handler stores the empty payload under its chunk
number and answers success with the current chunk count; there is no
`EmptyChunk` error. -/
theorem C7_empty_chunk_accepted (st : ServerState) (sid : String) (n : Int)
    (isFinal : String) (p : Pipeline) (hnf : ¬ pyLower isFinal = "true") :
    (upload_audio_chunk st sid n isFinal [] p).response =
        .chunkReceived sid (chunksOf (append_phase st sid n []) sid).length ∧
      dictGet n (chunksOf (upload_audio_chunk st sid n isFinal [] p).state
        sid) = some [] := by
  rw [upload_nonfinal_eq st sid n isFinal [] p hnf]
  refine ⟨rfl, ?_⟩
  simp [chunksOf, append_phase_get, sessionAfterAppend, dictGet_insert_self]

/-- C7 witness: the amended theorem applied at a concrete empty
upload. -/
theorem C7_empty_chunk_accepted_witness :
    (upload_audio_chunk [] "esp32" 1 "false" [] pUnknown).response =
        .chunkReceived "esp32"
          (chunksOf (append_phase [] "esp32" 1 []) "esp32").length ∧
      dictGet 1 (chunksOf (upload_audio_chunk [] "esp32" 1 "false" []
        pUnknown).state "esp32") = some [] :=
  C7_empty_chunk_accepted [] "esp32" 1 "false" pUnknown (by decide)

/-! ### Claim C8 -/

/-- C8: every failure of the fallible processing steps after the finish
signal is caught and converted into an error response carrying the
collaborator's message, and the processing routine never surfaces a
raised `HTTPException` to the finish caller: recognition
`UnknownValueError` becomes the speech-not-recognized body,
`RequestError` becomes the API-error body with its message, any other
recognition exception and any translation exception become the
processing-error body with the message — none of them is re-raised. -/
theorem C8_errors_caught_and_converted (st : ServerState) (sid : String)
    (n : Int) (isFinal : String) (d : List Nat) (p : Pipeline)
    (h : pyLower isFinal = "true") :
    (∀ m, (upload_audio_chunk st sid n isFinal d p).response ≠ .httpError m) ∧
      (p.transcribe (upload_audio_wav_bytes
          (assemblePayload (sessionAfterAppend st sid n d))) = .unknownValue →
        (upload_audio_chunk st sid n isFinal d p).response =
          .speechNotRecognized) ∧
      (∀ m, p.transcribe (upload_audio_wav_bytes
          (assemblePayload (sessionAfterAppend st sid n d))) = .requestError m →
        (upload_audio_chunk st sid n isFinal d p).response = .apiError m) ∧
      (∀ m, p.transcribe (upload_audio_wav_bytes
          (assemblePayload (sessionAfterAppend st sid n d))) = .exn m →
        (upload_audio_chunk st sid n isFinal d p).response =
          .processingError m) ∧
      (∀ e m, p.transcribe (upload_audio_wav_bytes
          (assemblePayload (sessionAfterAppend st sid n d))) = .ok e →
        p.translate e = .exn m →
        (upload_audio_chunk st sid n isFinal d p).response =
          .processingError m) := by
  rw [upload_final_eq st sid n isFinal d p h]
  simp only [process_complete_audio, append_phase_get, upload_audio_wav_bytes]
  cases h1 : p.transcribe (assembleWav CHANNELS SAMPLE_WIDTH SAMPLE_RATE
      (assemblePayload (sessionAfterAppend st sid n d))) with
  | ok e =>
      cases h2 : p.translate e <;> simp_all
  | unknownValue => simp_all
  | requestError m => simp_all
  | exn m => simp_all

/-- C8 witness: the theorem applied at a concrete finish upload whose
recognition step raises `UnknownValueError`. -/
theorem C8_errors_caught_and_converted_witness :
    (upload_audio_chunk [] "esp32" 1 "true" [9] pUnknown).response =
      .speechNotRecognized :=
  (C8_errors_caught_and_converted [] "esp32" 1 "true" [9] pUnknown rfl).2.1 rfl

/-! ### Claim C9 -/

/-- C9: the audio assembler is deterministic: two finish runs over
possibly different registries, session ids, chunk partitions and
pipelines, whose accumulated payload bytes coincide, write the
identical WAV container bytes — the fixed-configuration header followed
by the payload, equal to what the legacy single-shot endpoint of
`src/server_fastapi.py` writes for those bytes. -/
theorem C9_assembler_deterministic (st1 st2 : ServerState)
    (sid1 sid2 : String) (n1 n2 : Int) (f1 f2 : String)
    (d1 d2 : List Nat) (p1 p2 : Pipeline)
    (h1 : pyLower f1 = "true") (h2 : pyLower f2 = "true")
    (hpayload : assemblePayload (sessionAfterAppend st1 sid1 n1 d1) =
      assemblePayload (sessionAfterAppend st2 sid2 n2 d2)) :
    ∃ w, (upload_audio_chunk st1 sid1 n1 f1 d1 p1).wavWritten = some w ∧
      (upload_audio_chunk st2 sid2 n2 f2 d2 p2).wavWritten = some w ∧
      w = upload_audio_wav_bytes
        (assemblePayload (sessionAfterAppend st1 sid1 n1 d1)) := by
  refine ⟨upload_audio_wav_bytes
    (assemblePayload (sessionAfterAppend st1 sid1 n1 d1)), ?_, ?_, rfl⟩
  · rw [upload_final_eq st1 sid1 n1 f1 d1 p1 h1]
    exact wavWritten_process_append st1 sid1 n1 d1 p1
  · rw [upload_final_eq st2 sid2 n2 f2 d2 p2 h2]
    rw [wavWritten_process_append st2 sid2 n2 d2 p2, hpayload]

/-- C9 witness: two runs with different session ids and chunk
partitions of the same payload bytes `[1, 2]` write the same container. -/
theorem C9_assembler_deterministic_witness :
    ∃ w, (upload_audio_chunk [] "a" 5 "true" [1, 2] pOk).wavWritten = some w ∧
      (upload_audio_chunk (upload_audio_chunk [] "b" 1 "false" [1]
        pUnknown).state "b" 2 "true" [2] pUnknown).wavWritten = some w ∧
      w = upload_audio_wav_bytes
        (assemblePayload (sessionAfterAppend [] "a" 5 [1, 2])) :=
  C9_assembler_deterministic [] (upload_audio_chunk [] "b" 1 "false" [1]
      pUnknown).state "a" "b" 5 2 "true" "true" [1, 2] [2] pOk pUnknown
    rfl rfl (by decide)

/-! ### Claim C10 -/

/-- C10: when processing at finish ends in a failing outcome (speech
not recognized, API error, or any other processing error) the session
entry and all its accumulated chunks remain in the registry exactly as
the finish upload stored them, so a later finish re-runs processing
over those same bytes; the entry is removed from the registry only on a
fully successful outcome. -/
theorem C10_session_retained_on_failure (st : ServerState) (sid : String)
    (n : Int) (isFinal : String) (d : List Nat) (p : Pipeline)
    (h : pyLower isFinal = "true") (hnd : (st.map Prod.fst).Nodup) :
    (isSuccessOutcome (upload_audio_chunk st sid n isFinal d p).response =
        true →
      dictGet sid (upload_audio_chunk st sid n isFinal d p).state = none) ∧
      (isFailureOutcome (upload_audio_chunk st sid n isFinal d p).response =
          true →
        dictGet sid (upload_audio_chunk st sid n isFinal d p).state =
          some (sessionAfterAppend st sid n d)) := by
  rw [upload_final_eq st sid n isFinal d p h]
  have hrm : dictGet sid (dictRemove sid (append_phase st sid n d)) = none :=
    dictGet_remove_self sid _ (nodup_keys_append_phase st sid n d hnd)
  simp only [process_complete_audio, append_phase_get]
  cases h1 : p.transcribe (assembleWav CHANNELS SAMPLE_WIDTH SAMPLE_RATE
      (assemblePayload (sessionAfterAppend st sid n d))) with
  | ok e =>
      cases h2 : p.translate e <;>
        simp_all [isSuccessOutcome, isFailureOutcome, append_phase_get]
  | unknownValue => simp_all [isSuccessOutcome, isFailureOutcome, append_phase_get]
  | requestError m => simp_all [isSuccessOutcome, isFailureOutcome, append_phase_get]
  | exn m => simp_all [isSuccessOutcome, isFailureOutcome, append_phase_get]

/-- C10 witness: the theorem applied at a concrete finish upload whose
recognition fails — the session entry survives with its chunk. -/
theorem C10_session_retained_on_failure_witness :
    dictGet "esp32" (upload_audio_chunk [] "esp32" 1 "true" [5]
        pUnknown).state = some (sessionAfterAppend [] "esp32" 1 [5]) :=
  (C10_session_retained_on_failure [] "esp32" 1 "true" [5] pUnknown rfl
    (by simp)).2 (by decide)

end MicPoints
